import Mathlib

set_option maxHeartbeats 1000000

/-!
Verification of the message-execution engine of the `ethereumjs-vm` OVM fork.

The definitions below are a shallow embedding of the executor
(`src/packages/vm/lib/evm/evm.ts`), the interpreter's jump-destination
pre-scan (`src/unnamed/part_000`), the legacy executor variant
(`src/unnamed/part_003`) and the OVM state-manager bridge
(`src/unnamed/part_004`).  Byte buffers are lists of naturals, BN values are
naturals, and the asynchronous state manager is modelled as an explicit
checkpoint stack of state snapshots.  Parts of the program that live outside
the provided sources (the opcode handlers, ABI coding, the message rewrite)
enter as function parameters or as definitions marked `Modelled from the
spec`.
-/

namespace EvmOvm

/-- Byte sequences (JS `Buffer`) are lists of naturals; concrete inputs keep
entries below 256. -/
abbrev Bytes := List Nat

/-- Addresses are 20-byte buffers. -/
abbrev Addr := List Nat

/-- Modelled from the spec: the typed error kinds of section 7
(`lib/exceptions.ts` is not under src; the kinds are those the spec
enumerates and `evm.ts` references). -/
inductive ERROR where
  | STOP
  | REVERT
  | OUT_OF_GAS
  | INVALID_OPCODE
  | STACK_UNDERFLOW
  | STACK_OVERFLOW
  | INVALID_JUMP
  | STATIC_STATE_CHANGE
  | CREATE_COLLISION
  | VALUE_OVERFLOW
  | INTERNAL_ERROR
  | BLS_12_381_INVALID_INPUT_LENGTH
  | BLS_12_381_POINT_NOT_ON_CURVE
  | OVM_ERROR
  deriving DecidableEq, Repr

/-- A typed VM error carries one of the enumerated kinds. -/
structure VmError where
  error : ERROR
  deriving DecidableEq, Repr

/-- MAX_INTEGER of ethereumjs-util: the largest unsigned 256-bit value. -/
def MAX_INTEGER : Nat := 2 ^ 256 - 1

/-- KECCAK256_NULL of ethereumjs-util: the keccak-256 hash of the empty byte
string, the code hash of an account with no code. -/
def KECCAK256_NULL : Bytes :=
  [0xc5, 0xd2, 0x46, 0x01, 0x86, 0xf7, 0x23, 0x3c,
   0x92, 0x7e, 0x7d, 0xb2, 0xdc, 0xc7, 0x03, 0xc0,
   0xe5, 0x00, 0xb6, 0x53, 0xca, 0x82, 0x27, 0x3b,
   0x7b, 0xfa, 0xd8, 0x04, 0x5d, 0x85, 0xa4, 0x70]

/-- An account of the state view: `nonce` and `balance` are big integers in
the source (`BN`), `codeHash` a 32-byte buffer. -/
structure Account where
  nonce : Nat
  balance : Nat
  codeHash : Bytes
  deriving DecidableEq, Repr

/-- The account a state view reports for an address it has never seen. -/
def emptyAccount : Account := ⟨0, 0, KECCAK256_NULL⟩

/-- First-match association lookup; puts prepend, so the most recent write
wins. -/
def assocGet {α β : Type} [DecidableEq α] : List (α × β) → α → Option β
  | [], _ => none
  | (k, v) :: rest, a => if k = a then some v else assocGet rest a

/-- Association update by prepending the new binding. -/
def assocPut {α β : Type} [DecidableEq α] (m : List (α × β)) (k : α) (v : β) :
    List (α × β) :=
  (k, v) :: m

/-- One snapshot of the backing store: accounts, deployed code and storage
slots, as exposed by the external state view of spec section 6. -/
structure StateData where
  accounts : List (Addr × Account)
  contractCode : List (Addr × Bytes)
  storage : List ((Addr × Bytes) × Bytes)
  deriving DecidableEq, Repr

def StateData.getAccount (s : StateData) (a : Addr) : Account :=
  (assocGet s.accounts a).getD emptyAccount

def StateData.putAccount (s : StateData) (a : Addr) (acc : Account) : StateData :=
  { s with accounts := assocPut s.accounts a acc }

def StateData.getContractCode (s : StateData) (a : Addr) : Bytes :=
  (assocGet s.contractCode a).getD []

def StateData.putContractCode (s : StateData) (a : Addr) (c : Bytes) : StateData :=
  { s with contractCode := assocPut s.contractCode a c }

/-- Modelled from the spec: the backing `getContractStorage` (state manager,
not under src) returns the stored bytes of a slot; a slot never written
reads back empty, which callers such as the OVM bridge normalise to 32 zero
bytes. -/
def StateData.getContractStorage (s : StateData) (a : Addr) (k : Bytes) : Bytes :=
  (assocGet s.storage (a, k)).getD []

/-- Modelled from the spec: the backing `putContractStorage` stores the given
bytes at (address, slot). -/
def StateData.putContractStorage (s : StateData) (a : Addr) (k : Bytes) (v : Bytes) :
    StateData :=
  { s with storage := assocPut s.storage (a, k) v }

def StateData.clearContractStorage (s : StateData) (a : Addr) : StateData :=
  { s with storage := s.storage.filter (fun p => decide (p.1.1 ≠ a)) }

/-- The checkpointed state view: `cur` is the live snapshot, `saved` the
stack of open checkpoints (`checkpoint` pushes a copy of `cur`, `commit`
discards the top saved snapshot, `revert` restores it). -/
structure World where
  cur : StateData
  saved : List StateData
  deriving DecidableEq, Repr

def World.checkpoint (w : World) : World := ⟨w.cur, w.cur :: w.saved⟩

def World.commit (w : World) : World := ⟨w.cur, w.saved.tail⟩

def World.revert (w : World) : World := ⟨w.saved.headD w.cur, w.saved.tail⟩

def World.putAccount (w : World) (a : Addr) (acc : Account) : World :=
  { w with cur := w.cur.putAccount a acc }

def World.putContractCode (w : World) (a : Addr) (c : Bytes) : World :=
  { w with cur := w.cur.putContractCode a c }

def World.clearContractStorage (w : World) (a : Addr) : World :=
  { w with cur := w.cur.clearContractStorage a }

/-- `ExecResult` of evm.ts: the per-call execution result.  The `runState`
back-pointer is omitted; optional fields default to absent exactly as the
object literals in the source leave them out. -/
structure ExecResult where
  exceptionError : Option VmError := none
  gas : Option Nat := none
  gasUsed : Nat := 0
  returnValue : Bytes := []
  logs : Option (List (Addr × Bytes)) := none
  selfdestructs : Option (List (Addr × Addr)) := none
  gasRefund : Option Nat := none
  deriving DecidableEq, Repr

/-- `EVMResult` of evm.ts. -/
structure EVMResult where
  gasUsed : Nat
  createdAddress : Option Addr := none
  execResult : ExecResult
  deriving DecidableEq, Repr

/-- `OOGResult` of evm.ts. -/
def OOGResult (gasLimit : Nat) : ExecResult :=
  { returnValue := [], gasUsed := gasLimit,
    exceptionError := some ⟨ERROR.OUT_OF_GAS⟩ }

/-- The `code` field of a message: either deployed bytecode or a precompile
function (`PrecompileFunc`, taking call data and a gas limit). -/
inductive CodeVal where
  | precompiled (f : Bytes → Nat → ExecResult)
  | bytecode (b : Bytes)

/-- Resolved length of a message's `code` field as the JS length checks see
it: a `Buffer`'s length is its byte count; a precompile is a unary JS
function, whose `.length` is 1. -/
def codeEmptyB : Option CodeVal → Bool
  | none => true
  | some (CodeVal.precompiled _) => false
  | some (CodeVal.bytecode b) => b.isEmpty

def codeBytesOf : Option CodeVal → Bytes
  | some (CodeVal.bytecode b) => b
  | _ => []

/-- `Message` of evm/message.ts as evm.ts consumes it. -/
structure Message where
  caller : Addr
  «to» : Option Addr := none
  value : Nat := 0
  data : Bytes := []
  code : Option CodeVal := none
  isCompiled : Bool := false
  gasLimit : Nat
  depth : Nat := 0
  isStatic : Bool := false
  delegatecall : Bool := false
  salt : Option Bytes := none
  codeAddress : Addr := []

/-- The executor's own mutable fields: the refund accumulator and the three
OVM latches. -/
structure Executor where
  refund : Nat := 0
  targetMessage : Option Message := none
  targetMessageResult : Option EVMResult := none
  accountMessageResult : Option EVMResult := none

/-- Outcome of one `interpreter.run` together with the EEI and executor state
after the run.  The opcode handlers are outside the provided sources, so
`executeMessage` and `runInterpreter` are parameterised by a function
producing this record. -/
structure InterpRun where
  exceptionError : Option VmError
  gasLeft : Nat
  executor : Executor
  logs : List (Addr × Bytes)
  selfdestructs : List (Addr × Addr)
  returnValue : Option Bytes
  world : World

/-- The interpreter as the executor sees it: message, state view and executor
in, an `InterpRun` out. -/
abbrev Interp := Message → World → Executor → InterpRun

/-- Names the contract registry can resolve an address to. -/
inductive CName where
  | stateManager
  | executionManager
  | ecdsaContractAccount
  | other
  deriving DecidableEq, Repr

/-- The host context the executor dereferences through `this._vm`: well-known
addresses and bytecode, fork switches, the contract registry, and the
external collaborators (message rewrite, target predicate, OVM bridge,
precompile registry) that live outside the provided sources. -/
structure Ctx where
  mockEcdsaCode : Bytes
  emAddress : Addr
  smAddress : Addr
  registry : List (Addr × CName)
  spuriousDragon : Bool
  createDataPrice : Nat
  maxCodeSize : Nat
  allowUnlimitedContractSize : Bool
  toOvmMessage : Message → Message
  isTargetMessage : Message → Bool
  handleCall : World → Message → World × Bytes
  precompiles : Addr → Option (Bytes → Nat → ExecResult)

/-- Result triple of a helper returning an `ExecResult`. -/
structure StepOut where
  world : World
  executor : Executor
  result : ExecResult

/-- Result triple of a helper returning an `EVMResult`. -/
structure MsgOut where
  world : World
  executor : Executor
  result : EVMResult

/-- `_addToBalance` of evm.ts: credit the message value, failing with
VALUE_OVERFLOW when the new balance would exceed MAX_INTEGER.  The source
writes the updated account back with `putAccount`; here the caller applies
the returned account, which only happens when no error was thrown there
too. -/
def _addToBalance (toAccount : Account) (msg : Message) : Except VmError Account :=
  let newBalance := toAccount.balance + msg.value
  if MAX_INTEGER < newBalance then Except.error ⟨ERROR.VALUE_OVERFLOW⟩
  else Except.ok { toAccount with balance := newBalance }

/-- `_reduceSenderBalance` of evm.ts: debit the message value from the caller
and write the account back. -/
def _reduceSenderBalance (w : World) (msg : Message) : World :=
  let account := w.cur.getAccount msg.caller
  w.putAccount msg.caller { account with balance := account.balance - msg.value }

/-- `_loadCode` of evm.ts: when the message carries no code, consult the
precompile registry at `codeAddress`, else fetch deployed bytecode. -/
def _loadCode (ctx : Ctx) (w : World) (msg : Message) : Message :=
  match msg.code with
  | some _ => msg
  | none =>
    match ctx.precompiles msg.codeAddress with
    | some f => { msg with code := some (CodeVal.precompiled f), isCompiled := true }
    | none =>
      { msg with code := some (CodeVal.bytecode (w.cur.getContractCode msg.codeAddress)),
                 isCompiled := false }

/-- `runPrecompile` of evm.ts. -/
def runPrecompile (f : Bytes → Nat → ExecResult) (data : Bytes) (gasLimit : Nat) :
    ExecResult :=
  f data gasLimit

/-- `runInterpreter` of evm.ts (lines 455-510): snapshot the refund
accumulator, run the interpreter, charge the full gas limit on a non-REVERT
error, clear logs and selfdestructs and restore the refund accumulator on
any error, and report the remaining gas. -/
def runInterpreter (interp : Interp) (w : World) (ex : Executor) (msg : Message) :
    StepOut :=
  let oldRefund := ex.refund
  let ir := interp msg w ex
  let gasUsed := msg.gasLimit - ir.gasLeft
  match ir.exceptionError with
  | some e =>
    ⟨ir.world, { ir.executor with refund := oldRefund },
      { exceptionError := some e
        gas := some ir.gasLeft
        gasUsed := if e.error = ERROR.REVERT then gasUsed else msg.gasLimit
        returnValue := ir.returnValue.getD []
        logs := some []
        selfdestructs := some [] }⟩
  | none =>
    ⟨ir.world, ir.executor,
      { exceptionError := none
        gas := some ir.gasLeft
        gasUsed := gasUsed
        returnValue := ir.returnValue.getD []
        logs := some ir.logs
        selfdestructs := some ir.selfdestructs }⟩

/-- The value-transfer prefix of `_executeCall`: debit the caller and credit
the callee unless the message is a delegatecall, capturing a credit failure
instead of propagating it. -/
def callTransfer (w : World) (msg : Message) : World × Option VmError :=
  let w1 := if msg.delegatecall then w else _reduceSenderBalance w msg
  let toAccount := w1.cur.getAccount (msg.to.getD [])
  if msg.delegatecall then (w1, none)
  else
    match _addToBalance toAccount msg with
    | Except.ok acc => (w1.putAccount (msg.to.getD []) acc, none)
    | Except.error e => (w1, some e)

/-- `_executeCall` of evm.ts (lines 303-346). -/
def _executeCall (ctx : Ctx) (interp : Interp) (w : World) (ex : Executor)
    (msg : Message) : MsgOut :=
  let t := callTransfer w msg
  let msg1 := _loadCode ctx t.1 msg
  if codeEmptyB msg1.code || (t.2).isSome then
    ⟨t.1, ex, ⟨0, none, { gasUsed := 0, exceptionError := t.2, returnValue := [] }⟩⟩
  else if msg1.isCompiled then
    match msg1.code with
    | some (CodeVal.precompiled f) =>
      let r := runPrecompile f msg1.data msg1.gasLimit
      ⟨t.1, ex, ⟨r.gasUsed, none, r⟩⟩
    | _ =>
      -- the source throws an untyped `Invalid precompile` Error here;
      -- modelled as an INTERNAL_ERROR result
      ⟨t.1, ex, ⟨0, none,
        { gasUsed := 0
          exceptionError := some ⟨ERROR.INTERNAL_ERROR⟩
          returnValue := [] }⟩⟩
  else
    let so := runInterpreter interp t.1 ex msg1
    ⟨so.world, so.executor, ⟨so.result.gasUsed, none, so.result⟩⟩

/-- The `Buffer.from('00'.repeat(31) + b)` storage keys of the executor. -/
def slotKey (b : Nat) : Bytes := List.replicate 31 0 ++ [b]

/-- Modelled from the spec: `toHexAddress` of ovm/utils/buffer-utils (not
under src) renders a stored storage word as a 20-byte address; the last 20
bytes are kept and left-padded with zeros. -/
def toAddressBytes (b : Bytes) : Bytes :=
  let t := b.drop (b.length - 20)
  List.replicate (20 - t.length) 0 ++ t

/-- `_generateAddress` of evm.ts (lines 550-559): every create address is
read from the Execution Manager's storage slot 0x…0f, with no other
branch. -/
def evm_generateAddress (ctx : Ctx) (s : StateData) : Bytes :=
  toAddressBytes (s.getContractStorage ctx.emAddress (slotKey 0x0f))

/-- BN `toArrayLike(Buffer)`: minimal big-endian bytes, at least one byte. -/
def natToBytesAux (n : Nat) : Bytes :=
  if n = 0 then [] else natToBytesAux (n / 256) ++ [n % 256]
termination_by n
decreasing_by
  exact Nat.div_lt_self (by omega) (by omega)

def natToBytes (n : Nat) : Bytes := if n = 0 then [0] else natToBytesAux n

/-- Modelled from the spec: `generateAddress2` of ethereumjs-util (not under
src), the CREATE2-style derivation
keccak256(0xff ++ caller ++ salt ++ keccak256(code)) with the first 12 bytes
dropped; keccak256 enters as a parameter. -/
def generateAddress2 (keccak : Bytes → Bytes) (caller salt code : Bytes) : Bytes :=
  (keccak ([0xff] ++ caller ++ salt ++ keccak code)).drop 12

/-- Modelled from the spec: `generateAddress` of ethereumjs-util (not under
src), the CREATE-style derivation keccak256(rlp([caller, nonce])) with the
first 12 bytes dropped; keccak256 and the RLP pair encoder enter as
parameters. -/
def generateAddressRlp (keccak : Bytes → Bytes) (rlpPair : Bytes → Bytes → Bytes)
    (caller nonceBytes : Bytes) : Bytes :=
  (keccak (rlpPair caller nonceBytes)).drop 12

/-- `_generateAddress` of the legacy executor variant (src/unnamed/part_003,
lines 467-486): under `_isOvmCall` read the Execution Manager's storage slot
0x…05; otherwise CREATE2 when the message has a salt, else CREATE from the
caller's nonce minus one. -/
def legacy_generateAddress (keccak : Bytes → Bytes) (rlpPair : Bytes → Bytes → Bytes)
    (isOvmCall : Bool) (emAddress : Addr) (s : StateData) (msg : Message) : Bytes :=
  if isOvmCall then
    toAddressBytes (s.getContractStorage emAddress (slotKey 0x05))
  else
    match msg.salt with
    | some salt => generateAddress2 keccak msg.caller salt (codeBytesOf msg.code)
    | none =>
      generateAddressRlp keccak rlpPair msg.caller
        (natToBytes ((s.getAccount msg.caller).nonce - 1))

/-- The address-generation rule exactly as the specification's section 4.6
words it (for comparison with the code): the OVM path reads slot 0x…0f, the
standard path uses the CREATE2/CREATE derivations. -/
def spec_generateAddress (keccak : Bytes → Bytes) (rlpPair : Bytes → Bytes → Bytes)
    (isOvmCall : Bool) (emAddress : Addr) (s : StateData) (msg : Message) : Bytes :=
  if isOvmCall then
    toAddressBytes (s.getContractStorage emAddress (slotKey 0x0f))
  else
    match msg.salt with
    | some salt => generateAddress2 keccak msg.caller salt (codeBytesOf msg.code)
    | none =>
      generateAddressRlp keccak rlpPair msg.caller
        (natToBytes ((s.getAccount msg.caller).nonce - 1))

/-- The EIP-161 nonce bump of `_executeCreate` (lines 383-386), applied when
the active fork is at least Spurious Dragon. -/
def bumpNonce (c : Bool) (a : Account) : Account :=
  if c = true then { a with nonce := a.nonce + 1 } else a

/-- The value-credit step of `_executeCreate` (lines 388-394): apply
`_addToBalance`, writing the account back on success and capturing the error
otherwise. -/
def creditOrCapture (w2 : World) (a : Addr) (acct : Account) (msg : Message) :
    World × Option VmError :=
  match _addToBalance acct msg with
  | Except.ok acc => (w2.putAccount a acc, none)
  | Except.error e => (w2, some e)

/-- The post-interpreter processing of `_executeCreate` (lines 412-437):
charge the return-data fee on success, enforce the EIP-170 code-size limit,
and replace the result by an out-of-gas result when the total exceeds the
gas limit or the code is too large. -/
def createFinish (ctx : Ctx) (gasLimit : Nat) (result : ExecResult) : ExecResult :=
  let totalGas :=
    if result.exceptionError.isNone then
      result.gasUsed + result.returnValue.length * ctx.createDataPrice
    else result.gasUsed
  let allowedCodeSize :=
    !(ctx.spuriousDragon && decide (ctx.maxCodeSize < result.returnValue.length))
  if totalGas ≤ gasLimit ∧ (ctx.allowUnlimitedContractSize || allowedCodeSize) = true
  then { result with gasUsed := totalGas }
  else { result with returnValue := [], gasUsed := gasLimit,
                     exceptionError := some ⟨ERROR.OUT_OF_GAS⟩ }

/-- `_executeCreate` of evm.ts (lines 348-449). -/
def _executeCreate (ctx : Ctx) (interp : Interp) (w : World) (ex : Executor)
    (msg : Message) : MsgOut :=
  let w1 := _reduceSenderBalance w msg
  let code := msg.data
  let toA := evm_generateAddress ctx w1.cur
  let toAccount := w1.cur.getAccount toA
  if 0 < toAccount.nonce ∨ toAccount.codeHash ≠ KECCAK256_NULL then
    ⟨w1, ex, ⟨msg.gasLimit, some toA,
      { returnValue := [], exceptionError := some ⟨ERROR.CREATE_COLLISION⟩,
        gasUsed := msg.gasLimit }⟩⟩
  else
    let w2 := w1.clearContractStorage toA
    let toAccount2 := w2.cur.getAccount toA
    let toAccount3 := bumpNonce ctx.spuriousDragon toAccount2
    let t := creditOrCapture w2 toA toAccount3 msg
    if code.isEmpty then
      ⟨t.1, ex, ⟨0, some toA,
        { gasUsed := 0, exceptionError := t.2, returnValue := [] }⟩⟩
    else
      let msgRun := { msg with code := some (CodeVal.bytecode code), data := [],
                               «to» := some toA }
      let so := runInterpreter interp t.1 ex msgRun
      let result2 := createFinish ctx msg.gasLimit so.result
      let w3 :=
        if result2.exceptionError.isNone ∧ result2.returnValue ≠ [] then
          so.world.putContractCode toA result2.returnValue
        else so.world
      ⟨w3, so.executor, ⟨result2.gasUsed, some toA, result2⟩⟩

/-- The target lookup of `executeMessage` (lines 147-215): the callee is the
StateManager pseudo-contract when its deployed code is not the mock ECDSA
account code and the registry resolves the address to `OVM_StateManager`. -/
def isStateManagerTarget (ctx : Ctx) (s : StateData) (t : Addr) : Bool :=
  if s.getContractCode t = ctx.mockEcdsaCode then false
  else assocGet ctx.registry t == some CName.stateManager

/-- The dispatch step of `executeMessage` (lines 146-228): calls to the
StateManager pseudo-contract bypass interpretation and return the OVM
bridge's bytes with zero gas used; other calls go to `_executeCall`,
creations to `_executeCreate`. -/
def dispatch (ctx : Ctx) (interp : Interp) (w : World) (ex : Executor)
    (msg : Message) : MsgOut :=
  match msg.to with
  | some t =>
    if isStateManagerTarget ctx w.cur t then
      let hc := ctx.handleCall w msg
      ⟨hc.1, ex, ⟨0, none, { gasUsed := 0, returnValue := hc.2 }⟩⟩
    else _executeCall ctx interp w ex msg
  | none => _executeCreate ctx interp w ex msg

/-- The entry of `executeMessage` (lines 127-139): open a checkpoint; at
depth 0 install the mock ECDSA account code at the caller when it has none,
then rewrite the message into its OVM form. -/
def entryPhase (ctx : Ctx) (w : World) (msg0 : Message) : World × Message :=
  let w1 := w.checkpoint
  if msg0.depth = 0 then
    let callerCode := w1.cur.getContractCode msg0.caller
    let w2 := if callerCode.isEmpty then w1.putContractCode msg0.caller ctx.mockEcdsaCode
              else w1
    (w2, ctx.toOvmMessage msg0)
  else (w1, msg0)

/-- The target-message latch (lines 141-144). -/
def latchExecutor (ctx : Ctx) (ex : Executor) (msg : Message) : Executor :=
  if ex.targetMessage.isNone && ctx.isTargetMessage msg then
    { ex with targetMessage := some msg }
  else ex

/-- Entry, latch and dispatch of `executeMessage` composed, before the
commit/revert decision. -/
def dispatchResultOf (ctx : Ctx) (interp : Interp) (w : World) (ex : Executor)
    (msg0 : Message) : MsgOut :=
  let e := entryPhase ctx w msg0
  dispatch ctx interp e.1 (latchExecutor ctx ex e.2) e.2

/-- The depth-0 OVM exit reconciliation of `executeMessage`
(lines 250-289): with a latched target, filter Execution-Manager logs, strip
the 160-byte OVM flag prefix from errored target return data, apply the
deploy-exception heuristic, and take `createdAddress`, `returnValue` and
`exceptionError` from the target's result; with no latched target surface
OVM_ERROR. -/
def reconcile (ctx : Ctx) (ex : Executor) (result : EVMResult) : EVMResult :=
  match ex.targetMessageResult with
  | some tmr =>
    let logs2 : Option (List (Addr × Bytes)) :=
      match result.execResult.logs with
      | some ls => some (ls.filter (fun l => decide (l.1 ≠ ctx.emAddress)))
      | none => none
    let rd0 := tmr.execResult.returnValue
    let returnData :=
      if tmr.execResult.exceptionError.isSome ∧ 160 ≤ rd0.length then rd0.drop 160
      else rd0
    let eoaFalse : Bool :=
      match ex.accountMessageResult with
      | some amr => decide (amr.execResult.returnValue.take 32 = List.replicate 32 0)
      | none => false
    let wasDeployException := eoaFalse && tmr.execResult.exceptionError.isNone
    let exc :=
      if wasDeployException then some (⟨ERROR.REVERT⟩ : VmError)
      else tmr.execResult.exceptionError
    { result with
      createdAddress := tmr.createdAddress
      execResult := { result.execResult with
        logs := logs2, returnValue := returnData, exceptionError := exc } }
  | none =>
    { result with execResult :=
        { result.execResult with exceptionError := some ⟨ERROR.OVM_ERROR⟩ } }

/-- `executeMessage` of evm.ts (lines 124-301): entry rewrite, target latch,
dispatch, refund attachment, commit-or-revert, depth-0 OVM reconciliation
and the depth-1 account-message latch. -/
def executeMessage (ctx : Ctx) (interp : Interp) (w : World) (ex : Executor)
    (msg0 : Message) : MsgOut :=
  let e := entryPhase ctx w msg0
  let msg := e.2
  let isTargetMsg := ex.targetMessage.isNone && ctx.isTargetMessage msg
  let d := dispatchResultOf ctx interp w ex msg0
  let r1 : EVMResult :=
    { d.result with execResult :=
        { d.result.execResult with gasRefund := some d.executor.refund } }
  let failed := r1.execResult.exceptionError.isSome
  let w3 := if failed then d.world.revert else d.world.commit
  let r2 :=
    if failed then { r1 with execResult := { r1.execResult with logs := some [] } }
    else r1
  let ex3 :=
    if isTargetMsg then { d.executor with targetMessageResult := some r2 }
    else d.executor
  let r3 := if msg.depth = 0 then reconcile ctx ex3 r2 else r2
  let effTo := match msg.to with
    | some t => t
    | none => d.result.createdAddress.getD []
  let ex4 :=
    if msg.depth = 1 ∧ effTo ≠ ctx.smAddress then
      { ex3 with accountMessageResult := some r3 }
    else ex3
  ⟨w3, ex4, r3⟩

/-- `OvmStateManager.setStorage` (src/unnamed/part_004, lines 64-74). -/
def ovmSetStorage (s : StateData) (a : Addr) (slot : Bytes) (v : Bytes) : StateData :=
  s.putContractStorage a slot v

/-- `OvmStateManager.getStorageView` (part_004, lines 86-96): the stored
bytes, or NULL_BYTES32 when the backing store returns nothing. -/
def ovmGetStorageView (s : StateData) (a : Addr) (slot : Bytes) : Bytes :=
  let ret := s.getContractStorage a slot
  if ret.length ≠ 0 then ret else List.replicate 32 0

/-- `OvmStateManager.getStorage` (part_004, lines 76-84) forwards to
`getStorageView`. -/
def ovmGetStorage (s : StateData) (a : Addr) (slot : Bytes) : Bytes :=
  ovmGetStorageView s a slot

/-- Opcode classification used by the jump-destination pre-scan.  Modelled
from the spec: the fork opcode table (`opcodes.ts`) is not under src; the
bytes 0x60-0x7f are the PUSH-N opcodes (the scan's own `code[i] - 0x5f`
immediate count shows the range) and 0x5b is JUMPDEST, in every fork
table. -/
def isPushOp (b : Nat) : Bool := decide (0x60 ≤ b) && decide (b ≤ 0x7f)

def isJumpdestOp (b : Nat) : Bool := b == 0x5b

/-- Number of immediate bytes of a PUSH opcode byte, `code[i] - 0x5f`. -/
def pushSkip (b : Nat) : Nat := b - 0x5f

/-- Position of the next instruction: a PUSH advances past its immediates. -/
def nextPc (code : List Nat) (i : Nat) : Nat :=
  if isPushOp (code.getD i 0) then i + pushSkip (code.getD i 0) + 1 else i + 1

/-- `_getValidJumpDests` of the interpreter (src/unnamed/part_000, lines
228-245), generalised to its loop index: walk the code once, skipping PUSH
immediates, recording offsets whose byte is JUMPDEST. -/
def _getValidJumpDests (code : List Nat) (i : Nat) : List Nat :=
  if _h : i < code.length then
    let rest := _getValidJumpDests code (nextPc code i)
    if isJumpdestOp (code.getD i 0) then i :: rest else rest
  else []
termination_by code.length - i
decreasing_by
  have h2 : i < nextPc code i := by
    unfold nextPc
    split <;> omega
  omega

/-- All instruction start positions the scan visits from index `i`. -/
def instrStarts (code : List Nat) (i : Nat) : List Nat :=
  if _h : i < code.length then i :: instrStarts code (nextPc code i)
  else []
termination_by code.length - i
decreasing_by
  have h2 : i < nextPc code i := by
    unfold nextPc
    split <;> omega
  omega

/-- An offset lies inside the immediate bytes of some PUSH-N instruction of
the code (the claim's `not inside a PUSH immediate` side condition). -/
def insidePushImmediate (code : List Nat) (j : Nat) : Bool :=
  (instrStarts code 0).any (fun p =>
    isPushOp (code.getD p 0) && decide (p < j) &&
      decide (j ≤ p + pushSkip (code.getD p 0)))

/-! Concrete instances used by the closed witnesses and counterexamples. -/

def sData0 : StateData := ⟨[], [], []⟩

def world0 : World := ⟨sData0, []⟩

def exec0 : Executor := ⟨0, none, none, none⟩

/-- An interpreter outcome that terminates cleanly, leaving 40 gas. -/
def interp0 : Interp := fun _ w e => ⟨none, 40, e, [], [], some [], w⟩

/-- An interpreter outcome that reverts, leaving 7 gas. -/
def interpRevert : Interp :=
  fun _ w e => ⟨some ⟨ERROR.REVERT⟩, 7, e, [], [], some [0x01], w⟩

def ctx0 : Ctx :=
  { mockEcdsaCode := [0x01]
    emAddress := [0xee]
    smAddress := [0x55]
    registry := [([0x55], CName.stateManager)]
    spuriousDragon := false
    createDataPrice := 0
    maxCodeSize := 24576
    allowUnlimitedContractSize := false
    toOvmMessage := fun m => m
    isTargetMessage := fun _ => false
    handleCall := fun w _ => (w, [0x42])
    precompiles := fun _ => none }

def msgC1 : Message := { caller := [], gasLimit := 10 }

def worldC2 : World := ⟨⟨[], [([0x77], [0x00])], []⟩, []⟩

def msgC2 : Message := { caller := [0xcc], «to» := some [0x77], gasLimit := 100 }

def msgC3 : Message :=
  { caller := [0xcc], «to» := some [0x55], gasLimit := 100, depth := 1 }

def jcode : List Nat := [0x60, 0x5b, 0x5b]

def kkZero : Bytes → Bytes := fun _ => []

def rlpZero : Bytes → Bytes → Bytes := fun _ _ => []

def sC5 : StateData :=
  ⟨[], [], [(([0xee], slotKey 0x05), [0xaa]), (([0xee], slotKey 0x0f), [0xbb])]⟩

def msgC5 : Message := { caller := [0xcc], gasLimit := 0 }

def msgC5s : Message := { caller := [0xcc], gasLimit := 0, salt := some [0x07] }

def addrC6 : Addr := List.replicate 19 0 ++ [0xaa]

def wC6 : World :=
  ⟨⟨[(addrC6, ⟨1, 0, KECCAK256_NULL⟩)], [], [(([0xee], slotKey 0x0f), [0xaa])]⟩, []⟩

def msgC6 : Message := { caller := [0xcc], gasLimit := 50 }

def wC7 : World :=
  ⟨⟨[([0x77], ⟨0, MAX_INTEGER, KECCAK256_NULL⟩)], [([0x77], [0x60])], []⟩, []⟩

def msgC7 : Message :=
  { caller := [0xcc], «to» := some [0x77], value := 1, gasLimit := 30,
    codeAddress := [0x77] }

def tmrC8 : EVMResult := ⟨5, some [0x09], { gasUsed := 5, returnValue := [1, 2, 3] }⟩

def amrC8 : EVMResult := ⟨0, none, { gasUsed := 0, returnValue := List.replicate 32 0 }⟩

def dummyMsg : Message := { caller := [], gasLimit := 0 }

def exC8 : Executor := ⟨0, some dummyMsg, some tmrC8, some amrC8⟩

def msgC8 : Message := { caller := [0xcc], «to» := some [0x77], gasLimit := 100 }

def vC9 : Bytes := List.replicate 31 0 ++ [0x05]

def wC10 : World :=
  ⟨⟨[(addrC6, ⟨0, MAX_INTEGER, KECCAK256_NULL⟩)], [],
    [(([0xee], slotKey 0x0f), [0xaa])]⟩, []⟩

def msgC10 : Message := { caller := [0xcc], value := 1, data := [0x60], gasLimit := 50 }

/-! Helper lemmas. -/

theorem nextPc_gt (code : List Nat) (i : Nat) : i < nextPc code i := by
  unfold nextPc
  split <;> omega

theorem starts_ge (code : List Nat) :
    ∀ n i p, code.length - i ≤ n → p ∈ instrStarts code i → i ≤ p := by
  intro n
  induction n with
  | zero =>
    intro i p hn hp
    unfold instrStarts at hp
    split at hp
    · omega
    · simp at hp
  | succ n ih =>
    intro i p hn hp
    unfold instrStarts at hp
    split at hp
    · rcases List.mem_cons.mp hp with rfl | hp2
      · exact le_refl _
      · have h1 := nextPc_gt code i
        have h2 := ih (nextPc code i) p (by omega) hp2
        omega
    · simp at hp

theorem starts_sep (code : List Nat) :
    ∀ n i p q, code.length - i ≤ n → p ∈ instrStarts code i →
      q ∈ instrStarts code i → p < q → nextPc code p ≤ q := by
  intro n
  induction n with
  | zero =>
    intro i p q hn hp _ _
    unfold instrStarts at hp
    split at hp
    · omega
    · simp at hp
  | succ n ih =>
    intro i p q hn hp hq hpq
    unfold instrStarts at hp hq
    by_cases hlen : i < code.length
    · rw [dif_pos hlen] at hp hq
      rcases List.mem_cons.mp hp with rfl | hp2
      · rcases List.mem_cons.mp hq with rfl | hq2
        · omega
        · exact starts_ge code (code.length - nextPc code p) (nextPc code p) q
            (by omega) hq2
      · rcases List.mem_cons.mp hq with rfl | hq2
        · have h1 := nextPc_gt code q
          have h2 := starts_ge code (code.length - nextPc code q) (nextPc code q) p
            (by omega) hp2
          omega
        · have h1 := nextPc_gt code i
          exact ih (nextPc code i) p q (by omega) hp2 hq2 hpq
    · rw [dif_neg hlen] at hp
      simp at hp

theorem scan_below (code : List Nat) :
    ∀ n i j, code.length - i ≤ n → j ∈ _getValidJumpDests code i →
      code.getD j 0 = 0x5b ∧ j ∈ instrStarts code i := by
  intro n
  induction n with
  | zero =>
    intro i j hn hj
    unfold _getValidJumpDests at hj
    split at hj
    · omega
    · simp at hj
  | succ n ih =>
    intro i j hn hj
    unfold _getValidJumpDests at hj
    split at hj
    · rename_i hlen
      have h1 := nextPc_gt code i
      split at hj
      · rename_i hjd
        rcases List.mem_cons.mp hj with rfl | hj2
        · refine ⟨?_, ?_⟩
          · unfold isJumpdestOp at hjd
            rw [beq_iff_eq] at hjd
            exact hjd
          · unfold instrStarts
            rw [dif_pos hlen]
            exact List.mem_cons_self _ _
        · obtain ⟨hb, hm⟩ := ih (nextPc code i) j (by omega) hj2
          refine ⟨hb, ?_⟩
          unfold instrStarts
          rw [dif_pos hlen]
          exact List.mem_cons_of_mem _ hm
      · obtain ⟨hb, hm⟩ := ih (nextPc code i) j (by omega) hj
        refine ⟨hb, ?_⟩
        unfold instrStarts
        rw [dif_pos hlen]
        exact List.mem_cons_of_mem _ hm
    · simp at hj

/-! Claim theorems. -/

/-- Claim C9: a bridge `setStorage(addr, slot, value)` followed by
`getStorage(addr, slot)` returns exactly the stored 32-byte value, and
`getStorage` of a slot never written returns 32 zero bytes. -/
theorem stateBridge_storage_roundtrip (s : StateData) (a : Addr) (slot v : Bytes)
    (hv : v.length = 32) :
    ovmGetStorage (ovmSetStorage s a slot v) a slot = v ∧
    (assocGet s.storage (a, slot) = none →
      ovmGetStorage s a slot = List.replicate 32 0) := by
  constructor
  · have h1 : (ovmSetStorage s a slot v).getContractStorage a slot = v := by
      simp [ovmSetStorage, StateData.putContractStorage, StateData.getContractStorage,
        assocPut, assocGet]
    simp only [ovmGetStorage, ovmGetStorageView]
    rw [h1]
    rw [if_pos (show v.length ≠ 0 by omega)]
  · intro h0
    unfold ovmGetStorage ovmGetStorageView StateData.getContractStorage
    rw [h0]
    simp

theorem stateBridge_storage_roundtrip_witness :
    vC9.length = 32 ∧
    (ovmGetStorage (ovmSetStorage sData0 [0x0a] [0x01] vC9) [0x0a] [0x01] = vC9 ∧
     (assocGet sData0.storage ([0x0a], [0x01]) = none →
       ovmGetStorage sData0 [0x0a] [0x01] = List.replicate 32 0)) :=
  ⟨by decide, stateBridge_storage_roundtrip sData0 [0x0a] [0x01] vC9 (by decide)⟩

/-- Claim C1: in `runInterpreter`, a non-REVERT interpreter error charges the
entire gas limit; a REVERT reports gasUsed = gasLimit - gasLeft with the
result's gas field equal to the remaining gas; and on any error the
executor's refund accumulator is restored to its pre-run value. -/
theorem runInterpreter_error_gas_refund (interp : Interp) (w : World)
    (ex : Executor) (msg : Message) (e : VmError)
    (h : (interp msg w ex).exceptionError = some e) :
    (e.error ≠ ERROR.REVERT →
      (runInterpreter interp w ex msg).result.gasUsed = msg.gasLimit) ∧
    (e.error = ERROR.REVERT →
      (runInterpreter interp w ex msg).result.gasUsed
        = msg.gasLimit - (interp msg w ex).gasLeft ∧
      (runInterpreter interp w ex msg).result.gas
        = some ((interp msg w ex).gasLeft)) ∧
    (runInterpreter interp w ex msg).executor.refund = ex.refund := by
  have hT : runInterpreter interp w ex msg =
      ⟨(interp msg w ex).world, { (interp msg w ex).executor with refund := ex.refund },
        { exceptionError := some e
          gas := some ((interp msg w ex).gasLeft)
          gasUsed := if e.error = ERROR.REVERT
            then msg.gasLimit - (interp msg w ex).gasLeft else msg.gasLimit
          returnValue := (interp msg w ex).returnValue.getD []
          logs := some []
          selfdestructs := some [] }⟩ := by
    simp only [runInterpreter]
    rw [h]
  rw [hT]
  refine ⟨fun hne => ?_, fun he => ?_, rfl⟩
  · simp [hne]
  · simp [he]

theorem runInterpreter_error_gas_refund_witness :
    (interpRevert msgC1 world0 exec0).exceptionError = some ⟨ERROR.REVERT⟩ ∧
    (((⟨ERROR.REVERT⟩ : VmError).error ≠ ERROR.REVERT →
       (runInterpreter interpRevert world0 exec0 msgC1).result.gasUsed
         = msgC1.gasLimit) ∧
     ((⟨ERROR.REVERT⟩ : VmError).error = ERROR.REVERT →
       (runInterpreter interpRevert world0 exec0 msgC1).result.gasUsed
         = msgC1.gasLimit - (interpRevert msgC1 world0 exec0).gasLeft ∧
       (runInterpreter interpRevert world0 exec0 msgC1).result.gas
         = some ((interpRevert msgC1 world0 exec0).gasLeft)) ∧
     (runInterpreter interpRevert world0 exec0 msgC1).executor.refund
       = exec0.refund) :=
  ⟨rfl, runInterpreter_error_gas_refund interpRevert world0 exec0 msgC1
    ⟨ERROR.REVERT⟩ rfl⟩

/-- Claim C4: every offset recorded by the jump-destination pre-scan is the
position of a JUMPDEST opcode byte (0x5b) that does not lie inside the
immediate bytes of any PUSH-N instruction of the scanned code. -/
theorem validJumps_are_jumpdests (code : List Nat) (j : Nat)
    (hj : j ∈ _getValidJumpDests code 0) :
    code.getD j 0 = 0x5b ∧ insidePushImmediate code j = false := by
  obtain ⟨hb, hmem⟩ := scan_below code code.length 0 j (by omega) hj
  refine ⟨hb, ?_⟩
  by_contra hcon
  rw [Bool.not_eq_false] at hcon
  unfold insidePushImmediate at hcon
  rw [List.any_eq_true] at hcon
  obtain ⟨p, hp, hcond⟩ := hcon
  rw [Bool.and_eq_true, Bool.and_eq_true] at hcond
  obtain ⟨⟨hpush, hlt⟩, hle⟩ := hcond
  rw [decide_eq_true_eq] at hlt hle
  have hsep := starts_sep code code.length 0 p j (by omega) hp hmem hlt
  have hnp : nextPc code p = p + pushSkip (code.getD p 0) + 1 := by
    unfold nextPc
    rw [if_pos hpush]
  omega

theorem validJumps_are_jumpdests_witness :
    (2 ∈ _getValidJumpDests jcode 0) ∧ jcode.getD 2 0 = 0x5b ∧
      insidePushImmediate jcode 2 = false := by
  have hm : 2 ∈ _getValidJumpDests jcode 0 := by
    simp [jcode, _getValidJumpDests, nextPc, isPushOp, isJumpdestOp, pushSkip]
  obtain ⟨h1, h2⟩ := validJumps_are_jumpdests jcode 2 hm
  exact ⟨hm, h1, h2⟩

theorem putAccount_getAccount (s : StateData) (c a : Addr) (acc : Account) :
    (s.putAccount c acc).getAccount a = if c = a then acc else s.getAccount a := by
  simp only [StateData.putAccount, StateData.getAccount, assocPut, assocGet]
  split <;> rfl

theorem reduceSender_nonce (w : World) (msg : Message) (a : Addr) :
    ((_reduceSenderBalance w msg).cur.getAccount a).nonce
      = (w.cur.getAccount a).nonce := by
  show ((w.cur.putAccount msg.caller _).getAccount a).nonce = _
  rw [putAccount_getAccount]
  split
  · rename_i h
    rw [← h]
  · rfl

theorem reduceSender_codeHash (w : World) (msg : Message) (a : Addr) :
    ((_reduceSenderBalance w msg).cur.getAccount a).codeHash
      = (w.cur.getAccount a).codeHash := by
  show ((w.cur.putAccount msg.caller _).getAccount a).codeHash = _
  rw [putAccount_getAccount]
  split
  · rename_i h
    rw [← h]
  · rfl

/-- Claim C7: `_executeCall` returns immediately with zero gas used, an empty
return value and the captured credit error (none otherwise) whenever the
resolved code is empty or crediting the callee failed; and the credit fails
with VALUE_OVERFLOW exactly when the callee's balance plus the message value
exceeds MAX_INTEGER. -/
theorem executeCall_early_exit (ctx : Ctx) (interp : Interp) (w : World)
    (ex : Executor) (msg : Message)
    (h : (codeEmptyB (_loadCode ctx (callTransfer w msg).1 msg).code
          || ((callTransfer w msg).2).isSome) = true) :
    _executeCall ctx interp w ex msg =
      ⟨(callTransfer w msg).1, ex,
        ⟨0, none,
          { gasUsed := 0
            exceptionError := (callTransfer w msg).2
            returnValue := [] }⟩⟩ ∧
    (∀ interp2, _executeCall ctx interp2 w ex msg = _executeCall ctx interp w ex msg) ∧
    (callTransfer w msg).2 =
      (if msg.delegatecall then none
       else if MAX_INTEGER <
           ((_reduceSenderBalance w msg).cur.getAccount (msg.to.getD [])).balance
             + msg.value
         then some ⟨ERROR.VALUE_OVERFLOW⟩ else none) := by
  refine ⟨?_, ?_, ?_⟩
  · simp only [_executeCall]
    rw [if_pos h]
  · intro interp2
    simp only [_executeCall]
    rw [if_pos h, if_pos h]
  · by_cases hd : msg.delegatecall
    · simp [callTransfer, hd]
    · simp only [callTransfer, _addToBalance, hd, Bool.false_eq_true, if_false]
      by_cases hov : MAX_INTEGER <
          ((_reduceSenderBalance w msg).cur.getAccount (msg.to.getD [])).balance
            + msg.value
      · simp [hov]
      · simp [hov]

theorem executeCall_early_exit_witness :
    ((codeEmptyB (_loadCode ctx0 (callTransfer wC7 msgC7).1 msgC7).code
       || ((callTransfer wC7 msgC7).2).isSome) = true) ∧
    (_executeCall ctx0 interp0 wC7 exec0 msgC7 =
      ⟨(callTransfer wC7 msgC7).1, exec0,
        ⟨0, none,
          { gasUsed := 0
            exceptionError := (callTransfer wC7 msgC7).2
            returnValue := [] }⟩⟩ ∧
     (∀ interp2, _executeCall ctx0 interp2 wC7 exec0 msgC7
        = _executeCall ctx0 interp0 wC7 exec0 msgC7) ∧
     (callTransfer wC7 msgC7).2 =
       (if msgC7.delegatecall then none
        else if MAX_INTEGER <
            ((_reduceSenderBalance wC7 msgC7).cur.getAccount (msgC7.to.getD [])).balance
              + msgC7.value
          then some ⟨ERROR.VALUE_OVERFLOW⟩ else none)) :=
  ⟨by decide, executeCall_early_exit ctx0 interp0 wC7 exec0 msgC7 (by decide)⟩

/-- Claim C6: a creation message whose generated target address holds an
account with nonce greater than zero or a code hash different from the
empty-code hash returns CREATE_COLLISION with the entire gas limit consumed,
without running the init code (the result does not depend on the
interpreter). -/
theorem executeCreate_collision (ctx : Ctx) (interp : Interp) (w : World)
    (ex : Executor) (msg : Message)
    (hcol : 0 < (w.cur.getAccount (evm_generateAddress ctx w.cur)).nonce ∨
      (w.cur.getAccount (evm_generateAddress ctx w.cur)).codeHash ≠ KECCAK256_NULL) :
    _executeCreate ctx interp w ex msg =
      ⟨_reduceSenderBalance w msg, ex,
        ⟨msg.gasLimit, some (evm_generateAddress ctx w.cur),
          { returnValue := [], exceptionError := some ⟨ERROR.CREATE_COLLISION⟩,
            gasUsed := msg.gasLimit }⟩⟩ ∧
    (∀ interp2, _executeCreate ctx interp2 w ex msg
      = _executeCreate ctx interp w ex msg) := by
  have hcol2 : 0 < ((_reduceSenderBalance w msg).cur.getAccount
        (evm_generateAddress ctx (_reduceSenderBalance w msg).cur)).nonce ∨
      ((_reduceSenderBalance w msg).cur.getAccount
        (evm_generateAddress ctx (_reduceSenderBalance w msg).cur)).codeHash
        ≠ KECCAK256_NULL := by
    rcases hcol with h | h
    · left
      rw [reduceSender_nonce]
      exact h
    · right
      rw [reduceSender_codeHash]
      exact h
  refine ⟨?_, ?_⟩
  · simp only [_executeCreate]
    rw [if_pos hcol2]
    rfl
  · intro interp2
    simp only [_executeCreate]
    rw [if_pos hcol2, if_pos hcol2]

theorem executeCreate_collision_witness :
    (0 < (wC6.cur.getAccount (evm_generateAddress ctx0 wC6.cur)).nonce ∨
      (wC6.cur.getAccount (evm_generateAddress ctx0 wC6.cur)).codeHash
        ≠ KECCAK256_NULL) ∧
    (_executeCreate ctx0 interp0 wC6 exec0 msgC6 =
      ⟨_reduceSenderBalance wC6 msgC6, exec0,
        ⟨msgC6.gasLimit, some (evm_generateAddress ctx0 wC6.cur),
          { returnValue := [], exceptionError := some ⟨ERROR.CREATE_COLLISION⟩,
            gasUsed := msgC6.gasLimit }⟩⟩ ∧
     (∀ interp2, _executeCreate ctx0 interp2 wC6 exec0 msgC6
       = _executeCreate ctx0 interp0 wC6 exec0 msgC6)) :=
  ⟨by decide, executeCreate_collision ctx0 interp0 wC6 exec0 msgC6 (by decide)⟩

theorem runInterpreter_gas_field (interp : Interp) (w : World) (ex : Executor)
    (msg : Message) :
    (runInterpreter interp w ex msg).result.gas = some ((interp msg w ex).gasLeft) := by
  simp only [runInterpreter]
  cases hx : (interp msg w ex).exceptionError <;> rfl

theorem runInterpreter_err_field (interp : Interp) (w : World) (ex : Executor)
    (msg : Message) :
    (runInterpreter interp w ex msg).result.exceptionError
      = (interp msg w ex).exceptionError := by
  simp only [runInterpreter]
  cases hx : (interp msg w ex).exceptionError <;> rfl

theorem executeCreate_createdAddress (ctx : Ctx) (interp : Interp) (w : World)
    (ex : Executor) (msg : Message) :
    (_executeCreate ctx interp w ex msg).result.createdAddress
      = some (evm_generateAddress ctx w.cur) := by
  simp only [_executeCreate]
  split
  · rfl
  · split <;> rfl

/-- Claim C5 counterexample: under the OVM path the legacy variant's
`_generateAddress` reads the Execution Manager's storage slot 0x…05, not slot
0x…0f as the claim states; on a state where the two slots hold different
words the generated address differs from the claim's rule. -/
theorem generateAddress_spec_cex :
    legacy_generateAddress kkZero rlpZero true [0xee] sC5 msgC5
      ≠ spec_generateAddress kkZero rlpZero true [0xee] sC5 msgC5 := by
  decide

/-- Claim C5 amended: the current executor (`evm.ts`) reads every create
address from the Execution Manager's storage slot 0x…0f irrespective of the
message salt; the legacy variant (part_003) reads slot 0x…05 on its OVM path
(salt likewise ignored), and on its standard path derives the address
CREATE2-style when a salt is present and CREATE-style from the caller's
nonce minus one otherwise. -/
theorem generateAddress_characterization
    (ctx : Ctx) (interp : Interp) (w : World) (ex : Executor) (msg : Message)
    (keccak : Bytes → Bytes) (rlpPair : Bytes → Bytes → Bytes)
    (emAddress : Addr) (s : StateData) :
    (∀ salt2,
      (_executeCreate ctx interp w ex { msg with salt := salt2 }).result.createdAddress
        = some (toAddressBytes (w.cur.getContractStorage ctx.emAddress (slotKey 0x0f)))) ∧
    (∀ salt2,
      legacy_generateAddress keccak rlpPair true emAddress s { msg with salt := salt2 }
        = toAddressBytes (s.getContractStorage emAddress (slotKey 0x05))) ∧
    (∀ saltv, msg.salt = some saltv →
      legacy_generateAddress keccak rlpPair false emAddress s msg
        = (keccak ([0xff] ++ msg.caller ++ saltv ++ keccak (codeBytesOf msg.code))).drop 12) ∧
    (msg.salt = none →
      legacy_generateAddress keccak rlpPair false emAddress s msg
        = (keccak (rlpPair msg.caller
            (natToBytes ((s.getAccount msg.caller).nonce - 1)))).drop 12) := by
  refine ⟨?_, ?_, ?_, ?_⟩
  · intro salt2
    rw [executeCreate_createdAddress]
    rfl
  · intro salt2
    rfl
  · intro saltv hs
    simp only [legacy_generateAddress]
    rw [hs]
    rfl
  · intro hn
    simp only [legacy_generateAddress]
    rw [hn]
    rfl

theorem generateAddress_characterization_witness :
    msgC5s.salt = some [0x07] ∧
    legacy_generateAddress kkZero rlpZero false [0xee] sC5 msgC5s
      = (kkZero ([0xff] ++ msgC5s.caller ++ [0x07]
          ++ kkZero (codeBytesOf msgC5s.code))).drop 12 :=
  ⟨rfl, (generateAddress_characterization ctx0 interp0 world0 exec0 msgC5s kkZero
      rlpZero [0xee] sC5).2.2.1 [0x07] rfl⟩

theorem bumpNonce_balance (c : Bool) (a : Account) :
    (bumpNonce c a).balance = a.balance := by
  simp only [bumpNonce]
  split <;> rfl

theorem creditOrCapture_overflow (w2 : World) (aA : Addr) (acct : Account)
    (msg : Message) (h : MAX_INTEGER < acct.balance + msg.value) :
    creditOrCapture w2 aA acct msg = (w2, some ⟨ERROR.VALUE_OVERFLOW⟩) := by
  simp only [creditOrCapture]
  unfold _addToBalance
  rw [if_pos h]

theorem creditOrCapture_saved (w2 : World) (aA : Addr) (acct : Account)
    (msg : Message) :
    ((creditOrCapture w2 aA acct msg).1).saved = w2.saved := by
  simp only [creditOrCapture]
  split <;> rfl

theorem createFinish_gas (ctx : Ctx) (g : Nat) (r : ExecResult) :
    (createFinish ctx g r).gas = r.gas := by
  simp only [createFinish]
  split <;> split <;> rfl

theorem createFinish_no_overflow (ctx : Ctx) (g : Nat) (r : ExecResult)
    (h : r.exceptionError ≠ some ⟨ERROR.VALUE_OVERFLOW⟩) :
    (createFinish ctx g r).exceptionError ≠ some ⟨ERROR.VALUE_OVERFLOW⟩ := by
  simp only [createFinish]
  split <;> split
  all_goals first
    | exact h
    | simp

/-- Claim C10 (implicit): in `_executeCreate` a VALUE_OVERFLOW raised while
crediting value to the new contract surfaces as the result's error only when
the init code is empty; with non-empty init code the captured credit error
is discarded and the interpreter still runs (the result's gas field comes
from the interpreter outcome) — unlike `_executeCall`, which returns the
captured credit error even when the resolved code is non-empty. -/
theorem create_value_overflow_discarded (ctx : Ctx) (interp : Interp) (w : World)
    (ex : Executor) (msg : Message)
    (hnocol : ¬(0 < (w.cur.getAccount (evm_generateAddress ctx w.cur)).nonce ∨
        (w.cur.getAccount (evm_generateAddress ctx w.cur)).codeHash ≠ KECCAK256_NULL))
    (hover : MAX_INTEGER <
      ((_reduceSenderBalance w msg).cur.getAccount
        (evm_generateAddress ctx w.cur)).balance + msg.value) :
    (msg.data = [] →
      (_executeCreate ctx interp w ex msg).result.execResult.exceptionError
        = some ⟨ERROR.VALUE_OVERFLOW⟩) ∧
    (msg.data ≠ [] →
      (_executeCreate ctx interp w ex msg).result.execResult.gas
        = some ((interp
            { msg with
                code := some (CodeVal.bytecode msg.data)
                data := []
                «to» := some (evm_generateAddress ctx w.cur) }
            ((_reduceSenderBalance w msg).clearContractStorage
              (evm_generateAddress ctx w.cur))
            ex).gasLeft) ∧
      ((∀ m w2 e2, (interp m w2 e2).exceptionError ≠ some ⟨ERROR.VALUE_OVERFLOW⟩) →
        (_executeCreate ctx interp w ex msg).result.execResult.exceptionError
          ≠ some ⟨ERROR.VALUE_OVERFLOW⟩)) ∧
    (∀ msg2, msg2.delegatecall = false →
      ((callTransfer w msg2).2).isSome = true →
      codeEmptyB (_loadCode ctx (callTransfer w msg2).1 msg2).code = false →
      (_executeCall ctx interp w ex msg2).result.execResult.exceptionError
        = (callTransfer w msg2).2) := by
  have hgen : evm_generateAddress ctx (_reduceSenderBalance w msg).cur
      = evm_generateAddress ctx w.cur := rfl
  have hcol2 : ¬(0 < ((_reduceSenderBalance w msg).cur.getAccount
        (evm_generateAddress ctx (_reduceSenderBalance w msg).cur)).nonce ∨
      ((_reduceSenderBalance w msg).cur.getAccount
        (evm_generateAddress ctx (_reduceSenderBalance w msg).cur)).codeHash
        ≠ KECCAK256_NULL) := by
    rw [hgen, reduceSender_nonce, reduceSender_codeHash]
    exact hnocol
  have hclear : ∀ a : Addr,
      ((_reduceSenderBalance w msg).clearContractStorage a).cur.getAccount a
        = (_reduceSenderBalance w msg).cur.getAccount a := fun a => rfl
  have hbal3 : MAX_INTEGER <
      (bumpNonce ctx.spuriousDragon
        (((_reduceSenderBalance w msg).clearContractStorage
            (evm_generateAddress ctx w.cur)).cur.getAccount
          (evm_generateAddress ctx w.cur))).balance + msg.value := by
    rw [bumpNonce_balance, hclear]
    exact hover
  refine ⟨?_, ?_, ?_⟩
  · intro hd
    simp only [_executeCreate]
    rw [if_neg hcol2, hgen, hd]
    rw [if_pos (show ([] : Bytes).isEmpty = true from rfl)]
    rw [creditOrCapture_overflow _ _ _ _ hbal3]
  · intro hd
    have hie : ¬(msg.data.isEmpty = true) := by
      cases h2 : msg.data with
      | nil => exact absurd h2 hd
      | cons a l => simp
    simp only [_executeCreate]
    rw [if_neg hcol2, hgen]
    rw [if_neg hie]
    rw [creditOrCapture_overflow _ _ _ _ hbal3]
    constructor
    · exact (createFinish_gas _ _ _).trans (runInterpreter_gas_field _ _ _ _)
    · intro hI
      refine createFinish_no_overflow _ _ _ ?_
      rw [runInterpreter_err_field]
      exact hI _ _ _
  · intro msg2 hd2 herr hcode
    simp only [_executeCall]
    rw [if_pos (show (codeEmptyB (_loadCode ctx (callTransfer w msg2).1 msg2).code
      || ((callTransfer w msg2).2).isSome) = true from by
        rw [hcode, herr]
        rfl)]

theorem create_value_overflow_discarded_witness :
    (¬(0 < (wC10.cur.getAccount (evm_generateAddress ctx0 wC10.cur)).nonce ∨
        (wC10.cur.getAccount (evm_generateAddress ctx0 wC10.cur)).codeHash
          ≠ KECCAK256_NULL)) ∧
    (MAX_INTEGER <
      ((_reduceSenderBalance wC10 msgC10).cur.getAccount
        (evm_generateAddress ctx0 wC10.cur)).balance + msgC10.value) ∧
    ((msgC10.data = [] →
      (_executeCreate ctx0 interp0 wC10 exec0 msgC10).result.execResult.exceptionError
        = some ⟨ERROR.VALUE_OVERFLOW⟩) ∧
     (msgC10.data ≠ [] →
      (_executeCreate ctx0 interp0 wC10 exec0 msgC10).result.execResult.gas
        = some ((interp0
            { msgC10 with
                code := some (CodeVal.bytecode msgC10.data)
                data := []
                «to» := some (evm_generateAddress ctx0 wC10.cur) }
            ((_reduceSenderBalance wC10 msgC10).clearContractStorage
              (evm_generateAddress ctx0 wC10.cur))
            exec0).gasLeft) ∧
      ((∀ m w2 e2, (interp0 m w2 e2).exceptionError ≠ some ⟨ERROR.VALUE_OVERFLOW⟩) →
        (_executeCreate ctx0 interp0 wC10 exec0 msgC10).result.execResult.exceptionError
          ≠ some ⟨ERROR.VALUE_OVERFLOW⟩)) ∧
     (∀ msg2, msg2.delegatecall = false →
      ((callTransfer wC10 msg2).2).isSome = true →
      codeEmptyB (_loadCode ctx0 (callTransfer wC10 msg2).1 msg2).code = false →
      (_executeCall ctx0 interp0 wC10 exec0 msg2).result.execResult.exceptionError
        = (callTransfer wC10 msg2).2)) :=
  ⟨by decide, by decide,
    create_value_overflow_discarded ctx0 interp0 wC10 exec0 msgC10
      (by decide) (by decide)⟩

theorem runInterpreter_saved (interp : Interp) (w : World) (ex : Executor)
    (msg : Message)
    (hI : ∀ m w2 e2, ((interp m w2 e2).world).saved = w2.saved) :
    ((runInterpreter interp w ex msg).world).saved = w.saved := by
  simp only [runInterpreter]
  cases hx : (interp msg w ex).exceptionError
  · exact hI msg w ex
  · exact hI msg w ex

theorem callTransfer_saved (w : World) (msg : Message) :
    ((callTransfer w msg).1).saved = w.saved := by
  by_cases hd : msg.delegatecall
  · simp [callTransfer, hd]
  · simp only [callTransfer, hd, Bool.false_eq_true, if_false]
    split
    · rfl
    · rfl

theorem executeCall_saved (ctx : Ctx) (interp : Interp) (w : World) (ex : Executor)
    (msg : Message)
    (hI : ∀ m w2 e2, ((interp m w2 e2).world).saved = w2.saved) :
    ((_executeCall ctx interp w ex msg).world).saved = w.saved := by
  simp only [_executeCall]
  split
  · exact callTransfer_saved w msg
  · split
    · split
      · exact callTransfer_saved w msg
      · exact callTransfer_saved w msg
    · exact (runInterpreter_saved interp _ ex _ hI).trans (callTransfer_saved w msg)

theorem executeCreate_saved (ctx : Ctx) (interp : Interp) (w : World) (ex : Executor)
    (msg : Message)
    (hI : ∀ m w2 e2, ((interp m w2 e2).world).saved = w2.saved) :
    ((_executeCreate ctx interp w ex msg).world).saved = w.saved := by
  simp only [_executeCreate]
  split
  · rfl
  · split
    · exact creditOrCapture_saved _ _ _ _
    · split <;>
        exact (runInterpreter_saved interp _ ex _ hI).trans
          (creditOrCapture_saved _ _ _ _)

theorem dispatch_none (ctx : Ctx) (interp : Interp) (w : World) (ex : Executor)
    (msg : Message) (h : msg.to = none) :
    dispatch ctx interp w ex msg = _executeCreate ctx interp w ex msg := by
  simp only [dispatch]
  rw [h]

theorem dispatch_some (ctx : Ctx) (interp : Interp) (w : World) (ex : Executor)
    (msg : Message) (t : Addr) (h : msg.to = some t) :
    dispatch ctx interp w ex msg =
      (if isStateManagerTarget ctx w.cur t then
        ⟨(ctx.handleCall w msg).1, ex,
          ⟨0, none, { gasUsed := 0, returnValue := (ctx.handleCall w msg).2 }⟩⟩
      else _executeCall ctx interp w ex msg) := by
  simp only [dispatch]
  rw [h]

theorem dispatch_saved (ctx : Ctx) (interp : Interp) (w : World) (ex : Executor)
    (msg : Message)
    (hI : ∀ m w2 e2, ((interp m w2 e2).world).saved = w2.saved)
    (hH : ∀ w2 m, ((ctx.handleCall w2 m).1).saved = w2.saved) :
    ((dispatch ctx interp w ex msg).world).saved = w.saved := by
  cases hto : msg.to with
  | none =>
    rw [dispatch_none ctx interp w ex msg hto]
    exact executeCreate_saved ctx interp w ex msg hI
  | some t =>
    rw [dispatch_some ctx interp w ex msg t hto]
    by_cases hsm : isStateManagerTarget ctx w.cur t = true
    · rw [if_pos hsm]
      exact hH w msg
    · rw [if_neg hsm]
      exact executeCall_saved ctx interp w ex msg hI

theorem entryPhase_saved (ctx : Ctx) (w : World) (msg0 : Message) :
    ((entryPhase ctx w msg0).1).saved = w.cur :: w.saved := by
  simp only [entryPhase]
  split
  · split
    · rfl
    · rfl
  · rfl

theorem dispatchResultOf_saved (ctx : Ctx) (interp : Interp) (w : World)
    (ex : Executor) (msg0 : Message)
    (hI : ∀ m w2 e2, ((interp m w2 e2).world).saved = w2.saved)
    (hH : ∀ w2 m, ((ctx.handleCall w2 m).1).saved = w2.saved) :
    ((dispatchResultOf ctx interp w ex msg0).world).saved = w.cur :: w.saved := by
  simp only [dispatchResultOf]
  exact (dispatch_saved ctx interp (entryPhase ctx w msg0).1
    (latchExecutor ctx ex (entryPhase ctx w msg0).2) (entryPhase ctx w msg0).2 hI hH).trans
    (entryPhase_saved ctx w msg0)

theorem reconcile_logs_empty (ctx : Ctx) (ex : Executor) (r : EVMResult)
    (h : r.execResult.logs = some []) :
    (reconcile ctx ex r).execResult.logs = some [] := by
  simp only [reconcile]
  split
  · rw [h]
    simp
  · exact h

/-- Claim C2 counterexample: a depth-0 message whose dispatch succeeds is
committed, yet the exit reconciliation can still attach an error (here
OVM_ERROR, no target latched); the message ultimately fails while the
observable state differs from the state at entry. -/
theorem executeMessage_failed_state_restore_cex :
    ((executeMessage ctx0 interp0 worldC2 exec0 msgC2).result.execResult.exceptionError).isSome
      = true ∧
    (executeMessage ctx0 interp0 worldC2 exec0 msgC2).world.cur ≠ worldC2.cur := by
  decide

/-- Claim C2 amended: `executeMessage` opens exactly one checkpoint and the
checkpoint depth is restored on return; the commit-or-revert decision is
made on the dispatch result's exceptionError, before the depth-0 OVM exit
reconciliation: when the dispatch result errors, the checkpoint is reverted
(observable state returns to its entry value) and the logs are cleared; for
depth ≠ 0 the returned result errors exactly when the dispatch result does,
but at depth 0 the reconciliation may attach an error to a committed
result. -/
theorem executeMessage_checkpoint_discipline (ctx : Ctx) (interp : Interp)
    (w : World) (ex : Executor) (msg0 : Message)
    (hI : ∀ m w2 e2, ((interp m w2 e2).world).saved = w2.saved)
    (hH : ∀ w2 m, ((ctx.handleCall w2 m).1).saved = w2.saved) :
    (executeMessage ctx interp w ex msg0).world.saved = w.saved ∧
    (((dispatchResultOf ctx interp w ex msg0).result.execResult.exceptionError).isSome = true →
      (executeMessage ctx interp w ex msg0).world.cur = w.cur ∧
      (executeMessage ctx interp w ex msg0).result.execResult.logs = some []) ∧
    (msg0.depth ≠ 0 →
      ((executeMessage ctx interp w ex msg0).result.execResult.exceptionError).isSome
        = ((dispatchResultOf ctx interp w ex msg0).result.execResult.exceptionError).isSome) := by
  have hds := dispatchResultOf_saved ctx interp w ex msg0 hI hH
  have hw : (executeMessage ctx interp w ex msg0).world =
      (if ((dispatchResultOf ctx interp w ex msg0).result.execResult.exceptionError).isSome = true
       then (dispatchResultOf ctx interp w ex msg0).world.revert
       else (dispatchResultOf ctx interp w ex msg0).world.commit) := rfl
  refine ⟨?_, ?_, ?_⟩
  · rw [hw]
    by_cases hf : ((dispatchResultOf ctx interp w ex msg0).result.execResult.exceptionError).isSome = true
    · rw [if_pos hf]
      simp only [World.revert]
      rw [hds]
      rfl
    · rw [if_neg hf]
      simp only [World.commit]
      rw [hds]
      rfl
  · intro hf
    refine ⟨?_, ?_⟩
    · rw [hw, if_pos hf]
      simp only [World.revert]
      rw [hds]
      rfl
    · simp only [executeMessage]
      rw [if_pos hf]
      split
      · exact reconcile_logs_empty _ _ _ rfl
      · rfl
  · intro hdep
    have hmsg : (entryPhase ctx w msg0).2 = msg0 := by
      simp only [entryPhase]
      rw [if_neg hdep]
    simp only [executeMessage]
    rw [hmsg, if_neg hdep]
    by_cases hf : ((dispatchResultOf ctx interp w ex msg0).result.execResult.exceptionError).isSome = true
    · rw [if_pos hf]
    · rw [if_neg hf]

theorem executeMessage_checkpoint_discipline_witness :
    (∀ m w2 e2, ((interp0 m w2 e2).world).saved = w2.saved) ∧
    (∀ w2 m, ((ctx0.handleCall w2 m).1).saved = w2.saved) ∧
    ((executeMessage ctx0 interp0 worldC2 exec0 msgC2).world.saved = worldC2.saved ∧
     (((dispatchResultOf ctx0 interp0 worldC2 exec0 msgC2).result.execResult.exceptionError).isSome
        = true →
       (executeMessage ctx0 interp0 worldC2 exec0 msgC2).world.cur = worldC2.cur ∧
       (executeMessage ctx0 interp0 worldC2 exec0 msgC2).result.execResult.logs = some []) ∧
     (msgC2.depth ≠ 0 →
       ((executeMessage ctx0 interp0 worldC2 exec0 msgC2).result.execResult.exceptionError).isSome
         = ((dispatchResultOf ctx0 interp0 worldC2 exec0 msgC2).result.execResult.exceptionError).isSome)) :=
  ⟨fun _ _ _ => rfl, fun _ _ => rfl,
    executeMessage_checkpoint_discipline ctx0 interp0 worldC2 exec0 msgC2
      (fun _ _ _ => rfl) (fun _ _ => rfl)⟩

theorem reconcile_some (ctx : Ctx) (ex : Executor) (r : EVMResult) (tmr : EVMResult)
    (h : ex.targetMessageResult = some tmr) :
    reconcile ctx ex r =
      { r with
        createdAddress := tmr.createdAddress
        execResult := { r.execResult with
          logs := (match r.execResult.logs with
            | some ls => some (ls.filter (fun l => decide (l.1 ≠ ctx.emAddress)))
            | none => none)
          returnValue := (if tmr.execResult.exceptionError.isSome
              ∧ 160 ≤ tmr.execResult.returnValue.length
            then tmr.execResult.returnValue.drop 160
            else tmr.execResult.returnValue)
          exceptionError := (if ((match ex.accountMessageResult with
              | some amr =>
                decide (amr.execResult.returnValue.take 32 = List.replicate 32 0)
              | none => false) && tmr.execResult.exceptionError.isNone) = true
            then some ⟨ERROR.REVERT⟩
            else tmr.execResult.exceptionError) } } := by
  simp only [reconcile]
  rw [h]

theorem reconcile_none (ctx : Ctx) (ex : Executor) (r : EVMResult)
    (h : ex.targetMessageResult = none) :
    reconcile ctx ex r =
      { r with execResult :=
          { r.execResult with exceptionError := some ⟨ERROR.OVM_ERROR⟩ } } := by
  simp only [reconcile]
  rw [h]

/-- Claim C3: a message whose `to` resolves to the StateManager
pseudo-contract bypasses interpretation: the result's gasUsed is zero and
its returnValue is exactly the OVM bridge's handleCall output for that
message, and the whole result is independent of the interpreter.  (At depth
0 the executor's target latch is fresh, as it is at transaction entry.) -/
theorem executeMessage_stateManager_bypass (ctx : Ctx) (interp : Interp)
    (w : World) (ex : Executor) (msg0 : Message) (t : Addr)
    (hto : (entryPhase ctx w msg0).2.to = some t)
    (hsm : isStateManagerTarget ctx ((entryPhase ctx w msg0).1).cur t = true)
    (hfresh : (entryPhase ctx w msg0).2.depth = 0 →
      ex.targetMessage = none ∧ ex.targetMessageResult = none) :
    (executeMessage ctx interp w ex msg0).result.execResult.gasUsed = 0 ∧
    (executeMessage ctx interp w ex msg0).result.gasUsed = 0 ∧
    (executeMessage ctx interp w ex msg0).result.execResult.returnValue
      = (ctx.handleCall (entryPhase ctx w msg0).1 (entryPhase ctx w msg0).2).2 ∧
    (∀ interp2, executeMessage ctx interp2 w ex msg0
      = executeMessage ctx interp w ex msg0) := by
  have hd : ∀ itp : Interp, dispatchResultOf ctx itp w ex msg0 =
      ⟨(ctx.handleCall (entryPhase ctx w msg0).1 (entryPhase ctx w msg0).2).1,
        latchExecutor ctx ex (entryPhase ctx w msg0).2,
        ⟨0, none,
          { gasUsed := 0
            returnValue := (ctx.handleCall (entryPhase ctx w msg0).1
              (entryPhase ctx w msg0).2).2 }⟩⟩ := by
    intro itp
    simp only [dispatchResultOf]
    rw [dispatch_some ctx itp (entryPhase ctx w msg0).1
      (latchExecutor ctx ex (entryPhase ctx w msg0).2) (entryPhase ctx w msg0).2 t hto]
    rw [if_pos hsm]
  have hfull : ∀ itp itp2 : Interp,
      executeMessage ctx itp w ex msg0 = executeMessage ctx itp2 w ex msg0 := by
    intro itp itp2
    simp only [executeMessage]
    rw [hd itp, hd itp2]
  have hkey : (executeMessage ctx interp w ex msg0).result.execResult.gasUsed = 0 ∧
      (executeMessage ctx interp w ex msg0).result.gasUsed = 0 ∧
      (executeMessage ctx interp w ex msg0).result.execResult.returnValue
        = (ctx.handleCall (entryPhase ctx w msg0).1 (entryPhase ctx w msg0).2).2 := by
    simp only [executeMessage]
    rw [hd interp]
    simp only [Option.isSome_none, Bool.false_eq_true, if_false]
    by_cases hdep : (entryPhase ctx w msg0).2.depth = 0
    · rw [if_pos hdep]
      by_cases htm : (ex.targetMessage.isNone
          && ctx.isTargetMessage (entryPhase ctx w msg0).2) = true
      · rw [if_pos htm]
        rw [reconcile_some ctx _ _ _ rfl]
        refine ⟨rfl, rfl, ?_⟩
        simp
      · rw [if_neg htm]
        have hl : (latchExecutor ctx ex (entryPhase ctx w msg0).2).targetMessageResult
            = none := by
          simp only [latchExecutor]
          rw [if_neg htm]
          exact (hfresh hdep).2
        rw [reconcile_none ctx _ _ hl]
        exact ⟨rfl, rfl, rfl⟩
    · rw [if_neg hdep]
      exact ⟨rfl, rfl, rfl⟩
  exact ⟨hkey.1, hkey.2.1, hkey.2.2, fun itp2 => hfull itp2 interp⟩

theorem executeMessage_stateManager_bypass_witness :
    (entryPhase ctx0 world0 msgC3).2.to = some [0x55] ∧
    isStateManagerTarget ctx0 ((entryPhase ctx0 world0 msgC3).1).cur [0x55] = true ∧
    ((executeMessage ctx0 interp0 world0 exec0 msgC3).result.execResult.gasUsed = 0 ∧
     (executeMessage ctx0 interp0 world0 exec0 msgC3).result.gasUsed = 0 ∧
     (executeMessage ctx0 interp0 world0 exec0 msgC3).result.execResult.returnValue
       = (ctx0.handleCall (entryPhase ctx0 world0 msgC3).1 (entryPhase ctx0 world0 msgC3).2).2 ∧
     (∀ interp2, executeMessage ctx0 interp2 world0 exec0 msgC3
       = executeMessage ctx0 interp0 world0 exec0 msgC3)) :=
  ⟨rfl, by decide,
    executeMessage_stateManager_bypass ctx0 interp0 world0 exec0 msgC3 [0x55]
      rfl (by decide) (by intro h; exact absurd h (by decide))⟩

/-- Claim C8: at depth 0 with a target already latched and a depth-1 account
message recorded, the reconciliation takes `createdAddress` and the return
data (stripping the 160-byte OVM prefix when the target's result errored and
is long enough) from the target's result, and its exceptionError is a
synthesized REVERT exactly when the account message's first 32 return bytes
are all zero and the target's result has no error, and the target's own
exceptionError otherwise. -/
theorem executeMessage_deploy_exception (ctx : Ctx) (interp : Interp) (w : World)
    (ex : Executor) (msg0 : Message) (tmr amr : EVMResult)
    (hpre : ex.targetMessage.isSome = true)
    (hdep : (entryPhase ctx w msg0).2.depth = 0)
    (htmr : ((dispatchResultOf ctx interp w ex msg0).executor).targetMessageResult
      = some tmr)
    (hamr : ((dispatchResultOf ctx interp w ex msg0).executor).accountMessageResult
      = some amr) :
    (executeMessage ctx interp w ex msg0).result.createdAddress
      = tmr.createdAddress ∧
    (executeMessage ctx interp w ex msg0).result.execResult.returnValue
      = (if tmr.execResult.exceptionError.isSome
            ∧ 160 ≤ tmr.execResult.returnValue.length
         then tmr.execResult.returnValue.drop 160
         else tmr.execResult.returnValue) ∧
    (executeMessage ctx interp w ex msg0).result.execResult.exceptionError
      = (if amr.execResult.returnValue.take 32 = List.replicate 32 0
            ∧ tmr.execResult.exceptionError = none
         then some ⟨ERROR.REVERT⟩
         else tmr.execResult.exceptionError) := by
  have him : (ex.targetMessage.isNone
      && ctx.isTargetMessage (entryPhase ctx w msg0).2) = false := by
    cases hexm : ex.targetMessage with
    | none =>
      rw [hexm] at hpre
      simp at hpre
    | some v => rfl
  simp only [executeMessage]
  simp only [him, Bool.false_eq_true, if_false]
  rw [if_pos hdep]
  rw [reconcile_some ctx _ _ _ htmr]
  refine ⟨rfl, rfl, ?_⟩
  rw [hamr]
  by_cases hA : amr.execResult.returnValue.take 32 = List.replicate 32 0
  · cases herr2 : tmr.execResult.exceptionError with
    | none => simp [hA, herr2]
    | some e => simp [hA, herr2]
  · cases herr2 : tmr.execResult.exceptionError with
    | none => simp [hA, herr2]
    | some e => simp [hA, herr2]

theorem executeMessage_deploy_exception_witness :
    exC8.targetMessage.isSome = true ∧
    (entryPhase ctx0 world0 msgC8).2.depth = 0 ∧
    ((dispatchResultOf ctx0 interp0 world0 exC8 msgC8).executor).targetMessageResult
      = some tmrC8 ∧
    ((dispatchResultOf ctx0 interp0 world0 exC8 msgC8).executor).accountMessageResult
      = some amrC8 ∧
    ((executeMessage ctx0 interp0 world0 exC8 msgC8).result.createdAddress
       = tmrC8.createdAddress ∧
     (executeMessage ctx0 interp0 world0 exC8 msgC8).result.execResult.returnValue
       = (if tmrC8.execResult.exceptionError.isSome
             ∧ 160 ≤ tmrC8.execResult.returnValue.length
          then tmrC8.execResult.returnValue.drop 160
          else tmrC8.execResult.returnValue) ∧
     (executeMessage ctx0 interp0 world0 exC8 msgC8).result.execResult.exceptionError
       = (if amrC8.execResult.returnValue.take 32 = List.replicate 32 0
             ∧ tmrC8.execResult.exceptionError = none
          then some ⟨ERROR.REVERT⟩
          else tmrC8.execResult.exceptionError)) :=
  ⟨rfl, by decide, by decide, by decide,
    executeMessage_deploy_exception ctx0 interp0 world0 exC8 msgC8 tmrC8 amrC8
      rfl (by decide) (by decide) (by decide)⟩

end EvmOvm
